import Mathlib

/-!
# The scraper of `src/main.go`

A shallow embedding of the program's partition mapper (`getGenFolder`), its
completion ledger (`exists`), its download job (`runDownload`), its per-ID job
runner (`processID`) and its dispatcher (`main`), followed by the properties
the specification states about them.

Conventions of the embedding.

* Go strings are Lean strings, read through their list of characters: the
  text handled here is well-formed UTF-8, for which `strings.HasPrefix`
  compares characters just as it compares bytes.
* Go's `int` is `Int`; no arithmetic is done on IDs, so no overflow can occur.
* Everything the program asks of the operating system and of the browser
  session goes through a record of handlers `Sys W` acting on a world `W`.
  The world is arbitrary: it holds the filesystem, the clock and the remote
  site.  Handlers are total functions: every library call returns, the
  session call because it runs under the job's deadline.  A Go `error` is
  `Option String` (`none` is `nil`).
* Every library call the program issues is also appended to a list of `Call`s,
  so that statements such as "no file is renamed" can be made.
* Functions of Go's standard library (`fmt.Sprintf` with `%04d`,
  `strings.ToUpper`, `strings.HasPrefix`, and `filepath.Join` in the simulated
  platform) follow their documented behaviour.
* The goroutines of `main` are modelled by the interleavings of their steps:
  a state of the pool, and a step function telling which steps can be taken.
-/

namespace Scraper

/-! ## Constants -/

/-- The constant `MaxID` of `main.go`. -/
def MaxID : Int := 1025

/-- The constant `NumWorkers` of `main.go`. -/
def NumWorkers : Nat := 4

/-! ## Library functions on strings -/

/-- The byte `'0' + d` written by the integer formatter of `fmt`. -/
def digit (d : Nat) : Char := Char.ofNat (48 + d % 10)

/-- The digit loop of `fmt`: digits are produced from the right while the
value has at least two digits, then the leading digit is written.  A 64-bit
`int` has at most 19 digits, so 20 rounds cover every value. -/
def fmtDigits : Nat → Nat → List Char → List Char
  | 0, u, buf => digit u :: buf
  | fuel + 1, u, buf =>
    if 10 ≤ u then fmtDigits fuel (u / 10) (digit (u % 10) :: buf) else digit u :: buf

/-- Left padding with zeros up to `prec` digits. -/
def zeroPad (prec : Nat) (ds : List Char) : List Char :=
  List.replicate (prec - ds.length) '0' ++ ds

/-- The local `paddedID := fmt.Sprintf("%04d", id)`: width 4, zero flag; a
sign takes one of the four columns. -/
def paddedID (id : Int) : String :=
  if id < 0 then String.mk ('-' :: zeroPad 3 (fmtDigits 20 id.natAbs []))
  else String.mk (zeroPad 4 (fmtDigits 20 id.toNat []))

/-- Go's `strings.HasPrefix s p`. -/
def HasPrefix (s p : String) : Bool := p.data.isPrefixOf s.data

/-- Go's `unicode.ToUpper` on one rune: ASCII is handled by the code itself,
any other rune by the Unicode case tables, taken as the function
`unicodeUpper`. -/
def upperRune (unicodeUpper : Char → Char) (c : Char) : Char :=
  if c.toNat < 128 then
    if 97 ≤ c.toNat ∧ c.toNat ≤ 122 then Char.ofNat (c.toNat - 32) else c
  else unicodeUpper c

/-- Go's `strings.ToUpper`: every rune is mapped by `unicode.ToUpper`. -/
def ToUpper (unicodeUpper : Char → Char) (s : String) : String :=
  String.mk (s.data.map (upperRune unicodeUpper))

/-! ## The partition mapper -/

/-- The function `getGenFolder` of `main.go`. -/
def getGenFolder (id : Int) : String :=
  if id ≤ 151 then "Gen_1_Kanto"
  else if id ≤ 251 then "Gen_2_Johto"
  else if id ≤ 386 then "Gen_3_Hoenn"
  else if id ≤ 493 then "Gen_4_Sinnoh"
  else if id ≤ 649 then "Gen_5_Unova"
  else if id ≤ 721 then "Gen_6_Kalos"
  else if id ≤ 809 then "Gen_7_Alola"
  else if id ≤ 905 then "Gen_8_Galar"
  else "Gen_9_Paldea"

/-- The boundary table as the specification words it: inclusive upper
thresholds in increasing order, each with its bucket. -/
def boundaryTable : List (Int × String) :=
  [(151, "Gen_1_Kanto"), (251, "Gen_2_Johto"), (386, "Gen_3_Hoenn"),
   (493, "Gen_4_Sinnoh"), (649, "Gen_5_Unova"), (721, "Gen_6_Kalos"),
   (809, "Gen_7_Alola"), (905, "Gen_8_Galar")]

/-- The bucket as the specification words it: that of the first threshold of
the table the ID does not exceed, and the last bucket otherwise. -/
def bucketByTable (id : Int) : String :=
  match boundaryTable.find? (fun row => decide (id ≤ row.1)) with
  | some row => row.2
  | none => "Gen_9_Paldea"

/-! ## The operating system and the browser session -/

/-- The handlers behind the library calls of `main.go`, over a world `W`.
Reading calls observe the world; the others may change it, and with them
passes whatever the environment does meanwhile (a download landing). -/
structure Sys (W : Type) where
  /-- The call `os.ReadDir dir`: the entries' names and whether an error came
  with them.  As documented for `os.ReadDir`, on an error the entries read
  before the error are still returned. -/
  readDir : String → W → List String × Bool
  /-- The call `os.Stat path`: whether its error is `nil`. -/
  stat : String → W → Bool
  /-- The call `os.MkdirAll dir 0755`; `processID` drops its result. -/
  mkdirAll : String → W → W
  /-- The call `os.Rename oldpath newpath` and its error. -/
  rename : String → String → W → Option String × W
  /-- The call `chromedp.Run` of `runDownload` for `(id, mode, downloadPath)`
  under the job's deadline: the error, or the text read into `name`. -/
  run : Int → String → String → W → Except String String × W
  /-- The call `time.Sleep` for a number of seconds. -/
  sleep : Nat → W → W
  /-- The function `filepath.Join` of the platform, on two elements. -/
  join : String → String → String
  /-- The Unicode upper-case table behind `strings.ToUpper`. -/
  unicodeUpper : Char → Char

/-- One library call issued by the program. -/
inductive Call where
  | mkdirAll (dir : String)
  | readDir (dir : String)
  | printf (line : String)
  | run (id : Int) (mode : String) (downloadPath : String)
  | stat (path : String)
  | rename (oldpath newpath : String) (err : Option String)
  | sleep (seconds : Nat)
  deriving DecidableEq, Repr

/-- The state threaded through the program: the world and the calls issued
so far, oldest first. -/
structure St (W : Type) where
  world : W
  calls : List Call

variable {W : Type}

/-- Issue `os.MkdirAll`. -/
def osMkdirAll (sys : Sys W) (dir : String) (s : St W) : St W :=
  { world := sys.mkdirAll dir s.world, calls := s.calls ++ [Call.mkdirAll dir] }

/-- Issue `os.ReadDir`. -/
def osReadDir (sys : Sys W) (dir : String) (s : St W) : (List String × Bool) × St W :=
  (sys.readDir dir s.world, { s with calls := s.calls ++ [Call.readDir dir] })

/-- Issue `fmt.Printf`; the line is only recorded. -/
def fmtPrintf (line : String) (s : St W) : St W :=
  { s with calls := s.calls ++ [Call.printf line] }

/-- Issue `os.Stat`. -/
def osStat (sys : Sys W) (path : String) (s : St W) : Bool × St W :=
  (sys.stat path s.world, { s with calls := s.calls ++ [Call.stat path] })

/-- Issue `os.Rename`. -/
def osRename (sys : Sys W) (oldpath newpath : String) (s : St W) : Option String × St W :=
  let r := sys.rename oldpath newpath s.world
  (r.1, { world := r.2, calls := s.calls ++ [Call.rename oldpath newpath r.1] })

/-- Issue `time.Sleep`. -/
def timeSleep (sys : Sys W) (seconds : Nat) (s : St W) : St W :=
  { world := sys.sleep seconds s.world, calls := s.calls ++ [Call.sleep seconds] }

/-- Issue the `chromedp.Run` of `runDownload`. -/
def chromedpRun (sys : Sys W) (id : Int) (mode downloadPath : String) (s : St W) :
    Except String String × St W :=
  let r := sys.run id mode downloadPath s.world
  (r.1, { world := r.2, calls := s.calls ++ [Call.run id mode downloadPath] })

/-! ## The completion ledger -/

/-- The function `exists` of `main.go` (the name is reserved in Lean): the
error of `os.ReadDir` is dropped and the entries it returned are scanned. -/
def existsEntry (sys : Sys W) (dir idPrefix : String) (s : St W) : Bool × St W :=
  let r := osReadDir sys dir s
  (r.1.1.any (fun f => HasPrefix f ("pokedex_" ++ idPrefix)), r.2)

/-! ## The download job -/

/-- The transient file name `fmt.Sprintf("pokedex_%s.bmp", name)`. -/
def oldName (name : String) : String := "pokedex_" ++ name ++ ".bmp"

/-- The canonical file name
`fmt.Sprintf("pokedex_%s_%s.bmp", paddedID, strings.ToUpper(name))`. -/
def newName (sys : Sys W) (id : Int) (name : String) : String :=
  "pokedex_" ++ paddedID id ++ "_" ++ ToUpper sys.unicodeUpper name ++ ".bmp"

/-- The retry loop of `runDownload`, with `n` rounds left (`n = 15 - retry`). -/
def pollLoop (sys : Sys W) (oldFile newFile name : String) : Nat → St W → Option String × St W
  | 0, s => (some ("file " ++ name ++ " timeout"), s)
  | n + 1, s =>
    let r := osStat sys oldFile s
    if r.1 then osRename sys oldFile newFile r.2
    else pollLoop sys oldFile newFile name n (timeSleep sys 1 r.2)

/-- The function `runDownload` of `main.go`. -/
def runDownload (sys : Sys W) (id : Int) (mode downloadPath : String) (s : St W) :
    Option String × St W :=
  match chromedpRun sys id mode downloadPath s with
  | (Except.error err, s1) => (some err, s1)
  | (Except.ok name, s1) =>
    let oldFile := sys.join downloadPath (oldName name)
    let newFile := sys.join downloadPath (newName sys id name)
    pollLoop sys oldFile newFile name 15 s1

/-! ## The job runner -/

/-- The directory `targetDir` of one round of the loop of `processID`. -/
def targetDir (sys : Sys W) (id : Int) (absAbout absStats mode : String) : String :=
  sys.join (if mode = "stats" then absStats else absAbout) (getGenFolder id)

/-- One round of the loop of `processID`, for one mode. -/
def processMode (sys : Sys W) (id : Int) (absAbout absStats mode : String) (s : St W) : St W :=
  let dir := targetDir sys id absAbout absStats mode
  let s1 := osMkdirAll sys dir s
  let r := existsEntry sys dir (paddedID id) s1
  if r.1 then r.2
  else
    let s2 := fmtPrintf ("Worker processing ID " ++ paddedID id ++ " [" ++ mode ++ "]\n") r.2
    let d := runDownload sys id mode dir s2
    match d.1 with
    | none => d.2
    | some err =>
      timeSleep sys 2
        (fmtPrintf ("Error ID " ++ paddedID id ++ " [" ++ mode ++ "]: " ++ err ++ "\n") d.2)

/-- The function `processID` of `main.go`: the loop over the two modes. -/
def processID (sys : Sys W) (id : Int) (absAbout absStats : String) (s : St W) : St W :=
  ["about", "stats"].foldl (fun acc mode => processMode sys id absAbout absStats mode acc) s

/-! ## A simulated platform

A small deterministic instance of `Sys`, used to run the program on concrete
inputs: a Unix path join, a flat set of file paths, a clock, and downloads
that land a fixed number of seconds after the session returns. -/

/-- One element of `filepath.Clean`: empty and `.` elements are dropped, `..`
removes the element before it (at the root it is dropped, at the start of a
relative path it is kept), any other element is appended.  `out` holds the
elements kept so far, last first. -/
def cleanStep (rooted : Bool) (out : List String) (elem : String) : List String :=
  if elem = "" ∨ elem = "." then out
  else if elem = ".." then
    match out with
    | [] => if rooted then [] else [".."]
    | top :: rest => if top = ".." then ".." :: out else rest
  else elem :: out

/-- Go's `filepath.Clean` on a Unix platform. -/
def Clean (path : String) : String :=
  if path = "" then "."
  else
    let rooted := path.data.head? = some '/'
    let elems := (path.data.splitOn '/').map String.mk
    let out := (elems.foldl (cleanStep rooted) []).reverse
    let res := (if rooted then "/" else "") ++ "/".intercalate out
    if res = "" then "." else res

/-- Go's `filepath.Join` on a Unix platform, for two elements: the elements
from the first non-empty one on are joined by `/` and cleaned. -/
def unixJoin (a b : String) : String :=
  if a ≠ "" then Clean (a ++ "/" ++ b)
  else if b ≠ "" then Clean b
  else ""

/-- What the simulated environment does, fixed for a run. -/
structure SimCfg where
  /-- The result of `chromedp.Run` for `(id, mode)`. -/
  outcome : Int → String → Except String String
  /-- The file name under which the site's download is saved, when the
  download was triggered. -/
  saveAs : Int → String → Option String
  /-- Seconds between the return of `chromedp.Run` and the file landing. -/
  delay : Nat
  /-- The error every `os.Rename` reports, if renames are to fail. -/
  renameErr : Option String
  /-- When set to `n`, every `os.ReadDir` fails after reading `n` entries. -/
  listFault : Option Nat

/-- The simulated world. -/
structure SimWorld where
  clock : Nat
  files : List String
  inflight : List (Nat × String)
  deriving DecidableEq, Repr

/-- Downloads whose time has come land on disk. -/
def settle (w : SimWorld) : SimWorld :=
  { w with
    files := w.files ++ (w.inflight.filter (fun d => decide (d.1 ≤ w.clock))).map (fun d => d.2)
    inflight := w.inflight.filter (fun d => decide (w.clock < d.1)) }

/-- The name of the entry of `dir` through which the file `path` is reached,
if the file lies under `dir`. -/
def entryOf (dir path : String) : Option String :=
  if (dir ++ "/").data.isPrefixOf path.data then
    some (String.mk ((path.data.drop (dir.data.length + 1)).takeWhile (fun c => c ≠ '/')))
  else none

/-- The simulated platform. -/
def simSys (cfg : SimCfg) : Sys SimWorld where
  readDir := fun dir w =>
    let entries := w.files.filterMap (entryOf dir)
    match cfg.listFault with
    | none => (entries, false)
    | some n => (entries.take n, true)
  stat := fun path w => w.files.contains path
  mkdirAll := fun _ w => w
  rename := fun oldpath newpath w =>
    match cfg.renameErr with
    | some err => (some err, w)
    | none =>
      if w.files.contains oldpath then
        (none, { w with files := w.files.map (fun p => if p = oldpath then newpath else p) })
      else (some ("rename " ++ oldpath ++ " " ++ newpath ++ ": no such file or directory"), w)
  run := fun id mode downloadPath w =>
    let w1 : SimWorld :=
      match cfg.saveAs id mode with
      | none => w
      | some f => { w with inflight := w.inflight ++ [(w.clock + cfg.delay, unixJoin downloadPath f)] }
    (cfg.outcome id mode, settle w1)
  sleep := fun seconds w => settle { w with clock := w.clock + seconds }
  join := unixJoin
  unicodeUpper := fun c => c

/-- A session that always succeeds with the display name `name`, the site
saving its download as `file`, `delay` seconds after the session returns. -/
def okCfg (name file : String) (delay : Nat) : SimCfg where
  outcome := fun _ _ => Except.ok name
  saveAs := fun _ _ => some file
  delay := delay
  renameErr := none
  listFault := none

/-- The empty simulated world at time 0. -/
def emptyWorld : SimWorld := { clock := 0, files := [], inflight := [] }

/-- The initial state over a world: no call issued yet. -/
def start (w : W) : St W := { world := w, calls := [] }

/-! ## Concrete inputs used in the examples -/

/-- The about root of the examples. -/
def aboutRoot : String := "/data/about"

/-- The stats root of the examples. -/
def statsRoot : String := "/data/stats"

/-- The bucket directory of ID 1 under the about root of the examples. -/
def kantoDir : String := "/data/about/Gen_1_Kanto"

/-- A world in which the about job of ID 1 was completed by an earlier run. -/
def doneWorld : SimWorld :=
  { clock := 0, files := ["/data/about/Gen_1_Kanto/pokedex_0001_BULBA.bmp"], inflight := [] }

/-- The platform of the example scenario: the session succeeds with the
display name `Bulba` and the site's file is on disk when it returns. -/
def bulbaSys : Sys SimWorld := simSys (okCfg "Bulba" "pokedex_Bulba.bmp" 0)

/-- The world at the `i`-th poll of the retry loop (counted from 0) when no
poll before it found the file: `i` one-second sleeps after the world `w` in
which the session returned. -/
def pollWorld (sys : Sys W) (w : W) (i : Nat) : W := (sys.sleep 1)^[i] w

/-- The calls of `n` unsuccessful rounds of the retry loop. -/
def polls (oldFile : String) : Nat → List Call
  | 0 => []
  | n + 1 => Call.stat oldFile :: Call.sleep 1 :: polls oldFile n

/-- The platform of the example scenario with the site's file landing `delay`
seconds after the session returned. -/
def lateSys (delay : Nat) : Sys SimWorld := simSys (okCfg "Bulba" "pokedex_Bulba.bmp" delay)

/-- A platform on which every rename is refused: the session succeeds with the
display name `name` and the site's file `file` is on disk when it returns. -/
def lockedSys (name file : String) : Sys SimWorld :=
  simSys { okCfg name file 0 with renameErr := some "permission denied" }

/-- A platform on which every listing fails after reading one entry. -/
def faultySys : Sys SimWorld :=
  simSys { okCfg "Bulba" "pokedex_Bulba.bmp" 0 with listFault := some 1 }

/-! ## The dispatcher and the worker pool

The function `main` starts `NumWorkers` goroutines, sends the IDs 1 to `MaxID`
into the buffered channel `jobs`, closes it and waits.  Its runs are the
interleavings of the steps below; a schedule is a list of steps. -/

/-- What one worker goroutine of `main` is doing. -/
inductive Worker where
  /-- Started; the warm-up `chromedp.Run` has not returned yet. -/
  | warming
  /-- At `for id := range jobs`, about to receive. -/
  | waiting
  /-- Inside `processID` for the ID received. -/
  | running (id : Int)
  /-- Returned because the warm-up failed. -/
  | failed
  /-- Left the loop: the channel was closed and drained. -/
  | finished
  deriving DecidableEq, Repr

/-- A state of `main` and its goroutines. -/
structure Pool where
  /-- The number of sends done by the feeding loop; its variable `i` is
  `sent + 1`. -/
  sent : Nat
  /-- Whether `close(jobs)` has run. -/
  closed : Bool
  /-- The buffer of the channel `jobs`, oldest first. -/
  jobs : List Int
  /-- The goroutines, the one with `workerID = w + 1` at index `w`. -/
  workers : List Worker
  /-- Every receive so far, oldest first: the worker's index and the ID. -/
  received : List (Nat × Int)
  deriving DecidableEq, Repr

/-- One step of one thread. -/
inductive Action where
  /-- The statement `jobs <- i` and `i++` of the feeding loop. -/
  | feed
  /-- The statement `close(jobs)`. -/
  | close
  /-- The warm-up of worker `w` returns without error. -/
  | warmOk (w : Nat)
  /-- The warm-up of worker `w` returns an error and the worker returns. -/
  | warmFail (w : Nat)
  /-- Worker `w` receives the oldest ID of the channel and enters `processID`. -/
  | recv (w : Nat)
  /-- The call of `processID` returns in worker `w`. -/
  | finish (w : Nat)
  /-- The range loop of worker `w` ends on the closed, empty channel. -/
  | leave (w : Nat)
  deriving DecidableEq, Repr

/-- The state once the goroutines are started and nothing else has happened. -/
def Pool.init : Pool :=
  { sent := 0, closed := false, jobs := [],
    workers := List.replicate NumWorkers Worker.warming, received := [] }

/-- The effect of a step, or `none` when the step cannot be taken. -/
def step (p : Pool) : Action → Option Pool
  | Action.feed =>
    if ((p.sent : Int) + 1 ≤ MaxID) ∧ p.jobs.length < MaxID.toNat then
      some { p with jobs := p.jobs ++ [(p.sent : Int) + 1], sent := p.sent + 1 }
    else none
  | Action.close =>
    if (MaxID < (p.sent : Int) + 1) ∧ p.closed = false then some { p with closed := true }
    else none
  | Action.warmOk w =>
    if p.workers[w]? = some Worker.warming then
      some { p with workers := p.workers.set w Worker.waiting }
    else none
  | Action.warmFail w =>
    if p.workers[w]? = some Worker.warming then
      some { p with workers := p.workers.set w Worker.failed }
    else none
  | Action.recv w =>
    match p.jobs with
    | [] => none
    | id :: rest =>
      if p.workers[w]? = some Worker.waiting then
        some { p with jobs := rest, workers := p.workers.set w (Worker.running id),
                      received := p.received ++ [(w, id)] }
      else none
  | Action.finish w =>
    match p.workers[w]? with
    | some (Worker.running _) => some { p with workers := p.workers.set w Worker.waiting }
    | _ => none
  | Action.leave w =>
    if p.workers[w]? = some Worker.waiting ∧ p.jobs = [] ∧ p.closed = true then
      some { p with workers := p.workers.set w Worker.finished }
    else none

/-- The state a schedule leads to, if each of its steps can be taken. -/
def exec (p : Pool) : List Action → Option Pool
  | [] => some p
  | a :: rest =>
    match step p a with
    | none => none
    | some q => exec q rest

/-- The states `main` can be in. -/
def Reachable (p : Pool) : Prop := ∃ sched, exec Pool.init sched = some p

/-- The IDs 1 to `n` in increasing order. -/
def idsUpTo (n : Nat) : List Int := List.map Int.ofNat (List.range' 1 n)

/-- The workers once every warm-up has failed. -/
def deadWorkers : List Worker := List.replicate NumWorkers Worker.failed

/-- The run in which every warm-up fails: the four workers return, all IDs are
sent and the channel is closed. -/
def strandedRun : List Action :=
  [Action.warmFail 0, Action.warmFail 1, Action.warmFail 2, Action.warmFail 3] ++
    List.replicate 1025 Action.feed ++ [Action.close]

/-- The state at the end of the run in which every warm-up fails. -/
def strandedPool : Pool :=
  { sent := 1025, closed := true, jobs := idsUpTo 1025, workers := deadWorkers, received := [] }

/-- The state after the first worker has warmed up, ID 1 has been sent, and
the first worker has received it. -/
def busyPool : Pool :=
  { sent := 1, closed := false, jobs := [],
    workers := [Worker.running 1, Worker.warming, Worker.warming, Worker.warming],
    received := [(0, 1)] }

/-- What holds in every reachable state. -/
structure Inv (p : Pool) : Prop where
  queue : p.received.map Prod.snd ++ p.jobs = idsUpTo p.sent
  bound : (p.sent : Int) ≤ MaxID
  closed : p.closed = true → (p.sent : Int) = MaxID
  running : ∀ (w : Nat) (id : Int), p.workers[w]? = some (Worker.running id) → (w, id) ∈ p.received
  finished : (∃ w : Nat, p.workers[w]? = some Worker.finished) → p.closed = true ∧ p.jobs = []
  size : p.workers.length = NumWorkers

/-! ## Facts on formatting and prefixes -/

theorem digit_eq_iff (a b : Nat) : digit a = digit b ↔ a % 10 = b % 10 := by
  have key : ∀ x, x < 10 → ∀ y, y < 10 → Char.ofNat (48 + x) = Char.ofNat (48 + y) → x = y := by
    decide
  constructor
  · intro h
    exact key _ (Nat.mod_lt _ (by decide)) _ (Nat.mod_lt _ (by decide)) h
  · intro h
    simp [digit, h]

theorem digit_ne_dot (a : Nat) : digit a ≠ '.' := by
  have h : ∀ r, r < 10 → Char.ofNat (48 + r) ≠ '.' := by decide
  exact h (a % 10) (Nat.mod_lt _ (by decide))

theorem digit_mod (a : Nat) : digit (a % 10) = digit a := by
  simp [digit]

theorem fmtDigits_succ (fuel u : Nat) (buf : List Char) :
    fmtDigits (fuel + 1) u buf =
      if 10 ≤ u then fmtDigits fuel (u / 10) (digit (u % 10) :: buf) else digit u :: buf := rfl

theorem zeroPad_fmtDigits (n : Nat) (hn : n < 10000) :
    zeroPad 4 (fmtDigits 20 n []) =
      [digit (n / 1000), digit (n / 100), digit (n / 10), digit n] := by
  have h0 : digit 0 = '0' := by decide
  have s1 : fmtDigits 20 n [] = _ := fmtDigits_succ 19 n []
  have s2 : fmtDigits 19 (n / 10) [digit (n % 10)] = _ := fmtDigits_succ 18 _ _
  have s3 : fmtDigits 18 (n / 10 / 10) [digit (n / 10 % 10), digit (n % 10)] = _ :=
    fmtDigits_succ 17 _ _
  have s4 : fmtDigits 17 (n / 10 / 10 / 10)
      [digit (n / 10 / 10 % 10), digit (n / 10 % 10), digit (n % 10)] = _ :=
    fmtDigits_succ 16 _ _
  have d1 : n / 10 / 10 = n / 100 := by omega
  have d2 : n / 10 / 10 / 10 = n / 1000 := by omega
  by_cases h1 : n < 10
  · rw [s1, if_neg (by omega)]
    have e1 : n / 1000 = 0 := by omega
    have e2 : n / 100 = 0 := by omega
    have e3 : n / 10 = 0 := by omega
    rw [e1, e2, e3, h0]
    rfl
  · rw [s1, if_pos (by omega)]
    by_cases h2 : n < 100
    · rw [s2, if_neg (by omega)]
      have e1 : n / 1000 = 0 := by omega
      have e2 : n / 100 = 0 := by omega
      rw [e1, e2, h0, digit_mod]
      rfl
    · rw [s2, if_pos (by omega)]
      by_cases h3 : n < 1000
      · rw [s3, if_neg (by omega)]
        have e1 : n / 1000 = 0 := by omega
        rw [e1, h0, digit_mod, digit_mod, d1]
        rfl
      · rw [s3, if_pos (by omega), s4, if_neg (by omega)]
        rw [digit_mod, digit_mod, digit_mod, d2, d1]
        rfl

/-- For an ID from 0 to 9999 the padded ID is its four decimal digits. -/
theorem paddedID_data (id : Int) (h0 : 0 ≤ id) (h1 : id ≤ 9999) :
    (paddedID id).data =
      [digit (id.toNat / 1000), digit (id.toNat / 100), digit (id.toNat / 10), digit id.toNat] := by
  unfold paddedID
  rw [if_neg (by omega)]
  exact zeroPad_fmtDigits id.toNat (by omega)

theorem paddedID_length (id : Int) (h0 : 0 ≤ id) (h1 : id ≤ 9999) :
    (paddedID id).data.length = 4 := by
  rw [paddedID_data id h0 h1]
  rfl

theorem paddedID_no_dot (id : Int) (h0 : 0 ≤ id) (h1 : id ≤ 9999) :
    '.' ∉ (paddedID id).data := by
  rw [paddedID_data id h0 h1]
  intro h
  simp only [List.mem_cons, List.mem_singleton, List.not_mem_nil, or_false] at h
  rcases h with h | h | h | h <;> exact digit_ne_dot _ h.symm

theorem paddedID_inj (a b : Int) (ha0 : 0 ≤ a) (ha1 : a ≤ 9999) (hb0 : 0 ≤ b) (hb1 : b ≤ 9999)
    (h : paddedID a = paddedID b) : a = b := by
  have hd : (paddedID a).data = (paddedID b).data := by rw [h]
  rw [paddedID_data a ha0 ha1, paddedID_data b hb0 hb1] at hd
  simp only [List.cons.injEq, and_true, digit_eq_iff] at hd
  obtain ⟨e1, e2, e3, e4⟩ := hd
  omega

theorem hasPrefix_iff (s p : String) : HasPrefix s p = true ↔ p.data <+: s.data := by
  unfold HasPrefix
  exact List.isPrefixOf_iff_prefix

/-- A canonical file name starts with the ledger prefix of an ID exactly when
the two padded IDs are equal, provided these have the same length. -/
theorem prefix_canonical (p q u : String) (hlen : q.data.length = p.data.length) :
    HasPrefix ("pokedex_" ++ p ++ "_" ++ u ++ ".bmp") ("pokedex_" ++ q) = true ↔ q = p := by
  rw [hasPrefix_iff]
  simp only [String.data_append, List.append_assoc]
  rw [List.prefix_append_right_inj]
  constructor
  · intro h
    have h2 : p.data <+: p.data ++ ("_".data ++ (u.data ++ ".bmp".data)) := List.prefix_append _ _
    have h3 : q.data <+: p.data := List.prefix_of_prefix_length_le h h2 (le_of_eq hlen)
    exact String.ext (h3.eq_of_length hlen)
  · intro h
    subst h
    exact List.prefix_append _ _

/-- A transient file name starts with the ledger prefix of a four-digit padded
ID only if the display name itself starts with that padded ID. -/
theorem prefix_transient (p name : String) (hlen : p.data.length = 4) (hdot : '.' ∉ p.data)
    (h : HasPrefix (oldName name) ("pokedex_" ++ p) = true) : HasPrefix name p = true := by
  rw [hasPrefix_iff] at h ⊢
  unfold oldName at h
  simp only [String.data_append, List.append_assoc] at h
  rw [List.prefix_append_right_inj] at h
  by_cases hl : p.data.length ≤ name.data.length
  · exact List.prefix_of_prefix_length_le h (List.prefix_append _ _) hl
  · exfalso
    have hn : name.data <+: p.data :=
      List.prefix_of_prefix_length_le (List.prefix_append _ _) h (by omega)
    obtain ⟨r, hr⟩ := hn
    rw [← hr, List.prefix_append_right_inj] at h
    have hrlen : 0 < r.length := by
      have := congrArg List.length hr
      simp only [List.length_append] at this
      omega
    cases r with
    | nil => simp at hrlen
    | cons c r =>
      have hc : c = '.' := by
        obtain ⟨t, ht⟩ := h
        have : (c :: r ++ t).head? = some '.' := by rw [ht]; rfl
        simpa using this
      apply hdot
      rw [← hr, hc]
      simp

/-! ## Facts on the retry loop -/

theorem pollWorld_succ (sys : Sys W) (w : W) (i : Nat) :
    pollWorld sys (sys.sleep 1 w) i = pollWorld sys w (i + 1) := by
  unfold pollWorld
  rw [Function.iterate_succ_apply]

theorem pollLoop_succ (sys : Sys W) (oldFile newFile name : String) (n : Nat) (s : St W) :
    pollLoop sys oldFile newFile name (n + 1) s =
      if sys.stat oldFile s.world then
        osRename sys oldFile newFile { s with calls := s.calls ++ [Call.stat oldFile] }
      else
        pollLoop sys oldFile newFile name n
          { world := sys.sleep 1 s.world
            calls := s.calls ++ [Call.stat oldFile, Call.sleep 1] } := by
  simp [pollLoop, osStat, timeSleep]

/-- The retry loop when the file is first seen at poll `k`. -/
theorem pollLoop_found (sys : Sys W) (oldFile newFile name : String) :
    ∀ (k n : Nat) (s : St W), k < n →
      (∀ i, i < k → sys.stat oldFile (pollWorld sys s.world i) = false) →
      sys.stat oldFile (pollWorld sys s.world k) = true →
      pollLoop sys oldFile newFile name n s =
        osRename sys oldFile newFile
          { world := pollWorld sys s.world k
            calls := s.calls ++ polls oldFile k ++ [Call.stat oldFile] } := by
  intro k
  induction k with
  | zero =>
    intro n s hn _ hk
    obtain ⟨m, rfl⟩ : ∃ m, n = m + 1 := ⟨n - 1, by omega⟩
    have hk0 : sys.stat oldFile s.world = true := hk
    rw [pollLoop_succ, hk0]
    simp [pollWorld, polls]
  | succ k ih =>
    intro n s hn habs hk
    obtain ⟨m, rfl⟩ : ∃ m, n = m + 1 := ⟨n - 1, by omega⟩
    have h0 : sys.stat oldFile s.world = false := habs 0 (by omega)
    rw [pollLoop_succ, h0]
    simp only [Bool.false_eq_true, if_false]
    rw [ih m _ (by omega)]
    · simp [pollWorld_succ, polls]
    · intro i hi
      simpa [pollWorld_succ] using habs (i + 1) (by omega)
    · simpa [pollWorld_succ] using hk

/-- The retry loop when the file is seen at none of its polls. -/
theorem pollLoop_timeout (sys : Sys W) (oldFile newFile name : String) :
    ∀ (n : Nat) (s : St W),
      (∀ i, i < n → sys.stat oldFile (pollWorld sys s.world i) = false) →
      pollLoop sys oldFile newFile name n s =
        (some ("file " ++ name ++ " timeout"),
          { world := pollWorld sys s.world n, calls := s.calls ++ polls oldFile n }) := by
  intro n
  induction n with
  | zero =>
    intro s _
    simp [pollLoop, pollWorld, polls]
  | succ n ih =>
    intro s habs
    have h0 : sys.stat oldFile s.world = false := habs 0 (by omega)
    rw [pollLoop_succ, h0]
    simp only [Bool.false_eq_true, if_false]
    rw [ih]
    · simp [pollWorld_succ, polls]
    · intro i hi
      simpa [pollWorld_succ] using habs (i + 1) (by omega)

/-- The retry loop either times out after `n` unsuccessful polls or renames at
some poll `k < n`. -/
theorem pollLoop_cases (sys : Sys W) (oldFile newFile name : String) (n : Nat) (s : St W) :
    pollLoop sys oldFile newFile name n s =
        (some ("file " ++ name ++ " timeout"),
          { world := pollWorld sys s.world n, calls := s.calls ++ polls oldFile n }) ∨
      ∃ k, k < n ∧ pollLoop sys oldFile newFile name n s =
        osRename sys oldFile newFile
          { world := pollWorld sys s.world k
            calls := s.calls ++ polls oldFile k ++ [Call.stat oldFile] } := by
  by_cases h : ∀ i, i < n → sys.stat oldFile (pollWorld sys s.world i) = false
  · exact Or.inl (pollLoop_timeout sys oldFile newFile name n s h)
  · right
    push_neg at h
    have hex : ∃ i, i < n ∧ sys.stat oldFile (pollWorld sys s.world i) = true := by
      obtain ⟨i, hi, hne⟩ := h
      exact ⟨i, hi, by simpa using hne⟩
    classical
    let k := Nat.find hex
    have hk : k < n ∧ sys.stat oldFile (pollWorld sys s.world k) = true := Nat.find_spec hex
    refine ⟨k, hk.1, pollLoop_found sys oldFile newFile name k n s hk.1 ?_ hk.2⟩
    intro i hi
    have := Nat.find_min hex hi
    by_contra hc
    exact this ⟨by omega, by simpa using hc⟩

/-- The download job when the session returns an error. -/
theorem runDownload_error (sys : Sys W) (id : Int) (mode dir : String) (s : St W) (err : String)
    (h : (sys.run id mode dir s.world).1 = Except.error err) :
    runDownload sys id mode dir s =
      (some err, { world := (sys.run id mode dir s.world).2
                   calls := s.calls ++ [Call.run id mode dir] }) := by
  simp only [runDownload, chromedpRun, h]

/-- The download job when the session returns a display name. -/
theorem runDownload_ok (sys : Sys W) (id : Int) (mode dir : String) (s : St W) (name : String)
    (h : (sys.run id mode dir s.world).1 = Except.ok name) :
    runDownload sys id mode dir s =
      pollLoop sys (sys.join dir (oldName name)) (sys.join dir (newName sys id name)) name 15
        { world := (sys.run id mode dir s.world).2
          calls := s.calls ++ [Call.run id mode dir] } := by
  simp only [runDownload, chromedpRun, h]

/-- The session call is the first call of `runDownload`, and calls are only
ever appended. -/
theorem runDownload_calls (sys : Sys W) (id : Int) (mode dir : String) (s : St W) :
    ∃ rest, (runDownload sys id mode dir s).2.calls = s.calls ++ Call.run id mode dir :: rest := by
  cases hr : (sys.run id mode dir s.world).1 with
  | error err =>
    rw [runDownload_error sys id mode dir s err hr]
    exact ⟨[], rfl⟩
  | ok name =>
    rw [runDownload_ok sys id mode dir s name hr]
    rcases pollLoop_cases sys (sys.join dir (oldName name)) (sys.join dir (newName sys id name))
      name 15 { world := (sys.run id mode dir s.world).2,
                calls := s.calls ++ [Call.run id mode dir] } with h | ⟨k, _, h⟩
    · rw [h]
      exact ⟨polls (sys.join dir (oldName name)) 15, by simp⟩
    · rw [h]
      exact ⟨_, by simp only [osRename, List.append_assoc, List.singleton_append]; rfl⟩

/-- One round of `processID` always creates and lists the bucket directory
and, unless the ledger check hits, announces the job and runs the session. -/
theorem processMode_calls (sys : Sys W) (id : Int) (absAbout absStats mode : String) (s : St W) :
    ∃ rest, (processMode sys id absAbout absStats mode s).calls =
      s.calls ++ Call.mkdirAll (targetDir sys id absAbout absStats mode) ::
        Call.readDir (targetDir sys id absAbout absStats mode) ::
          (if (existsEntry sys (targetDir sys id absAbout absStats mode) (paddedID id)
              (osMkdirAll sys (targetDir sys id absAbout absStats mode) s)).1 then []
           else Call.printf ("Worker processing ID " ++ paddedID id ++ " [" ++ mode ++ "]\n") ::
             Call.run id mode (targetDir sys id absAbout absStats mode) :: rest) := by
  unfold processMode
  by_cases hhit : (existsEntry sys (targetDir sys id absAbout absStats mode) (paddedID id)
      (osMkdirAll sys (targetDir sys id absAbout absStats mode) s)).1 = true
  · refine ⟨[], ?_⟩
    simp only [hhit, if_true]
    simp [existsEntry, osReadDir, osMkdirAll]
  · simp only [hhit, if_false, Bool.false_eq_true]
    obtain ⟨rest, hrest⟩ := runDownload_calls sys id mode (targetDir sys id absAbout absStats mode)
      (fmtPrintf ("Worker processing ID " ++ paddedID id ++ " [" ++ mode ++ "]\n")
        (existsEntry sys (targetDir sys id absAbout absStats mode) (paddedID id)
          (osMkdirAll sys (targetDir sys id absAbout absStats mode) s)).2)
    cases hd : (runDownload sys id mode (targetDir sys id absAbout absStats mode)
      (fmtPrintf ("Worker processing ID " ++ paddedID id ++ " [" ++ mode ++ "]\n")
        (existsEntry sys (targetDir sys id absAbout absStats mode) (paddedID id)
          (osMkdirAll sys (targetDir sys id absAbout absStats mode) s)).2)).1 with
    | none =>
      refine ⟨rest, ?_⟩
      simp only []
      rw [hrest]
      simp [fmtPrintf, existsEntry, osReadDir, osMkdirAll]
    | some err =>
      refine ⟨rest ++ [Call.printf ("Error ID " ++ paddedID id ++ " [" ++ mode ++ "]: " ++ err
        ++ "\n"), Call.sleep 2], ?_⟩
      simp only [timeSleep, fmtPrintf, existsEntry, osReadDir, osMkdirAll] at hrest ⊢
      rw [hrest]
      simp

/-! ## Facts on the worker pool -/

theorem idsUpTo_succ (n : Nat) : idsUpTo (n + 1) = idsUpTo n ++ [(n : Int) + 1] := by
  unfold idsUpTo
  rw [List.range'_concat, List.map_append]
  simp [add_comm]

theorem idsUpTo_length (n : Nat) : (idsUpTo n).length = n := by
  simp [idsUpTo]

theorem idsUpTo_nodup (n : Nat) : (idsUpTo n).Nodup := by
  unfold idsUpTo
  exact (List.nodup_range' 1 n).map (fun a b h => Int.ofNat.inj h)

theorem exec_append (p : Pool) (a b : List Action) :
    exec p (a ++ b) = (exec p a).bind (fun q => exec q b) := by
  induction a generalizing p with
  | nil => rfl
  | cons x a ih =>
    simp only [List.cons_append, exec]
    cases step p x with
    | none => rfl
    | some q => exact ih q

theorem inv_init : Inv Pool.init where
  queue := by decide
  bound := by decide
  closed := by decide
  running := by
    intro w id h
    simp only [Pool.init, NumWorkers, List.getElem?_replicate] at h
    split_ifs at h
    simp at h
  finished := by
    rintro ⟨w, h⟩
    simp only [Pool.init, NumWorkers, List.getElem?_replicate] at h
    split_ifs at h
    simp at h
  size := by decide

/-- Setting a worker to a state that is neither running nor finished keeps the
two facts of the invariant that speak of workers. -/
theorem inv_set_idle (p : Pool) (w : Nat) (x : Worker) (hp : Inv p)
    (hx1 : ∀ id, x ≠ Worker.running id) (hx2 : x ≠ Worker.finished) :
    Inv { p with workers := p.workers.set w x } where
  queue := hp.queue
  bound := hp.bound
  closed := hp.closed
  running := by
    intro v id h
    simp only [List.getElem?_set] at h
    split_ifs at h with h1 h2
    · simp only [Option.some.injEq] at h
      exact absurd h (hx1 id)
    · exact hp.running v id h
  finished := by
    rintro ⟨v, h⟩
    simp only [List.getElem?_set] at h
    split_ifs at h with h1 h2
    · simp only [Option.some.injEq] at h
      exact absurd h hx2
    · exact hp.finished ⟨v, h⟩
  size := by simpa using hp.size

/-- Every step keeps the invariant. -/
theorem inv_step (p q : Pool) (a : Action) (hp : Inv p) (h : step p a = some q) : Inv q := by
  cases a with
  | feed =>
    simp only [step] at h
    split_ifs at h with hg
    simp only [Option.some.injEq] at h
    subst h
    exact
      { queue := by
          show p.received.map Prod.snd ++ (p.jobs ++ [(p.sent : Int) + 1]) = idsUpTo (p.sent + 1)
          rw [idsUpTo_succ, ← hp.queue, List.append_assoc]
        bound := by
          show ((p.sent + 1 : Nat) : Int) ≤ MaxID
          have := hg.1
          push_cast
          exact this
        closed := by
          intro hc
          have h1 := hp.closed hc
          have h2 := hg.1
          omega
        running := hp.running
        finished := by
          intro hf
          have h1 := hp.closed (hp.finished hf).1
          have h2 := hg.1
          omega
        size := hp.size }
  | close =>
    simp only [step] at h
    split_ifs at h with hg
    simp only [Option.some.injEq] at h
    subst h
    exact
      { queue := hp.queue
        bound := hp.bound
        closed := by
          intro _
          have h1 := hp.bound
          have h2 := hg.1
          show (p.sent : Int) = MaxID
          omega
        running := hp.running
        finished := by
          intro hf
          have := (hp.finished hf).1
          rw [hg.2] at this
          exact absurd this Bool.false_ne_true
        size := hp.size }
  | warmOk w =>
    simp only [step] at h
    split_ifs at h with hg
    simp only [Option.some.injEq] at h
    subst h
    exact inv_set_idle p w Worker.waiting hp (fun _ => by simp) (by simp)
  | warmFail w =>
    simp only [step] at h
    split_ifs at h with hg
    simp only [Option.some.injEq] at h
    subst h
    exact inv_set_idle p w Worker.failed hp (fun _ => by simp) (by simp)
  | recv w =>
    simp only [step] at h
    cases hj : p.jobs with
    | nil => simp [hj] at h
    | cons id rest =>
      simp only [hj] at h
      split_ifs at h with hg
      simp only [Option.some.injEq] at h
      subst h
      exact
        { queue := by
            show (p.received ++ [(w, id)]).map Prod.snd ++ rest = idsUpTo p.sent
            rw [← hp.queue, hj]
            simp
          bound := hp.bound
          closed := hp.closed
          running := by
            intro v x hv
            show (v, x) ∈ p.received ++ [(w, id)]
            simp only [List.getElem?_set] at hv
            split_ifs at hv with h1 h2
            · simp only [Option.some.injEq, Worker.running.injEq] at hv
              rw [← h1, ← hv]
              simp
            · exact List.mem_append_left _ (hp.running v x hv)
          finished := by
            rintro ⟨v, hv⟩
            simp only [List.getElem?_set] at hv
            split_ifs at hv with h1 h2
            · simp at hv
            · have := (hp.finished ⟨v, hv⟩).2
              rw [hj] at this
              simp at this
          size := by simpa using hp.size }
  | finish w =>
    simp only [step] at h
    split at h
    · simp only [Option.some.injEq] at h
      subst h
      exact inv_set_idle p w Worker.waiting hp (fun _ => by simp) (by simp)
    · simp at h
  | leave w =>
    simp only [step] at h
    split_ifs at h with hg
    simp only [Option.some.injEq] at h
    subst h
    exact
      { queue := hp.queue
        bound := hp.bound
        closed := hp.closed
        running := by
          intro v x hv
          simp only [List.getElem?_set] at hv
          split_ifs at hv with h1 h2
          · simp at hv
          · exact hp.running v x hv
        finished := fun _ => ⟨hg.2.2, hg.2.1⟩
        size := by simpa using hp.size }

theorem inv_exec (sched : List Action) : ∀ p q, Inv p → exec p sched = some q → Inv q := by
  induction sched with
  | nil =>
    intro p q hp h
    simp only [exec, Option.some.injEq] at h
    exact h ▸ hp
  | cons a rest ih =>
    intro p q hp h
    simp only [exec] at h
    cases hs : step p a with
    | none => simp [hs] at h
    | some r =>
      simp only [hs] at h
      exact ih r q (inv_step p r a hp hs) h

theorem inv_reachable (p : Pool) (h : Reachable p) : Inv p := by
  obtain ⟨sched, hs⟩ := h
  exact inv_exec sched Pool.init p inv_init hs

/-- Feeding `n` IDs into the empty channel while every worker has failed. -/
theorem exec_feed (n : Nat) (hn : n ≤ 1025) :
    exec { sent := 0, closed := false, jobs := [],
           workers := deadWorkers, received := [] }
        (List.replicate n Action.feed) =
      some { sent := n, closed := false, jobs := idsUpTo n,
             workers := deadWorkers, received := [] } := by
  induction n with
  | zero => rfl
  | succ n ih =>
    rw [List.replicate_succ', exec_append, ih (by omega)]
    have h1 : ((n : Int) + 1 ≤ MaxID) := by unfold MaxID; omega
    have h2 : (idsUpTo n).length < MaxID.toNat := by
      rw [idsUpTo_length]
      have : MaxID.toNat = 1025 := by decide
      omega
    simp only [Option.bind, exec, step, h1, h2, and_self, if_true, idsUpTo_succ]
/-! ## The partition mapper -/

/-- Claim C2.  For every integer ID, `getGenFolder` is the bucket of the first
inclusive threshold of the table 151, 251, 386, 493, 649, 721, 809, 905 that
the ID does not exceed, and `Gen_9_Paldea` past the last one; 151 and 251 lie
in different buckets, 151 in the first bucket of the table and 152 in the
second. -/
theorem getGenFolder_boundaries :
    (∀ id : Int, getGenFolder id = bucketByTable id) ∧
      getGenFolder 151 ≠ getGenFolder 251 ∧
      (boundaryTable.map (fun row => row.2))[0]? = some (getGenFolder 151) ∧
      (boundaryTable.map (fun row => row.2))[1]? = some (getGenFolder 152) ∧
      (boundaryTable.map (fun row => row.2))[1]? = some (getGenFolder 251) := by
  refine ⟨?_, by decide, by decide, by decide, by decide⟩
  intro id
  unfold getGenFolder bucketByTable boundaryTable
  split_ifs <;> simp [List.find?_cons, *]

/-! ## The completion ledger -/

/-- Claim C1.  In every state in which the listing that the ledger check reads
(that of the mode's bucket directory, once `os.MkdirAll` has run) holds an
entry starting with `pokedex_` and the padded ID, the round of `processID` for
that mode (`about`, `stats`, or any other string) issues `os.MkdirAll` and
`os.ReadDir` and nothing else: no session
is run, no file is looked up or renamed, and nothing is slept.  The loop of
`processID` is the round for `about` followed by the round for `stats`. -/
theorem processID_skips_on_ledger_hit (sys : Sys W) (id : Int)
    (absAbout absStats mode : String) (s : St W)
    (hhit : ∃ f ∈ (sys.readDir (targetDir sys id absAbout absStats mode)
        (sys.mkdirAll (targetDir sys id absAbout absStats mode) s.world)).1,
      HasPrefix f ("pokedex_" ++ paddedID id) = true) :
    processMode sys id absAbout absStats mode s =
        { world := sys.mkdirAll (targetDir sys id absAbout absStats mode) s.world
          calls := s.calls ++ [Call.mkdirAll (targetDir sys id absAbout absStats mode),
            Call.readDir (targetDir sys id absAbout absStats mode)] } ∧
      (∀ s0 : St W, processID sys id absAbout absStats s0 =
        processMode sys id absAbout absStats "stats"
          (processMode sys id absAbout absStats "about" s0)) := by
  refine ⟨?_, fun _ => rfl⟩
  have hany : (existsEntry sys (targetDir sys id absAbout absStats mode) (paddedID id)
      (osMkdirAll sys (targetDir sys id absAbout absStats mode) s)).1 = true := by
    simp only [existsEntry, osReadDir, osMkdirAll, List.any_eq_true]
    exact hhit
  unfold processMode
  simp only [hany, if_true]
  simp [existsEntry, osReadDir, osMkdirAll]

/-- The hypotheses of claim C1 hold in the example world where the about job
of ID 1 was completed earlier, and the round then only checks the ledger. -/
theorem processID_skips_on_ledger_hit_witness :
    (∃ f ∈ ((bulbaSys).readDir (targetDir bulbaSys 1 aboutRoot statsRoot "about")
          ((bulbaSys).mkdirAll (targetDir bulbaSys 1 aboutRoot statsRoot "about")
            (start doneWorld).world)).1,
        HasPrefix f ("pokedex_" ++ paddedID 1) = true) ∧
      (processMode bulbaSys 1 aboutRoot statsRoot "about" (start doneWorld)).calls =
        [Call.mkdirAll kantoDir, Call.readDir kantoDir] :=
  ⟨⟨"pokedex_0001_BULBA.bmp", by decide, by decide⟩,
    (congrArg St.calls (processID_skips_on_ledger_hit bulbaSys 1 aboutRoot statsRoot "about"
      (start doneWorld) ⟨"pokedex_0001_BULBA.bmp", by decide, by decide⟩).1).trans
      (by decide)⟩

/-- Claim C8, as amended.  When `os.ReadDir` reports an error together with
the entries `entries`, `exists` still scans these entries: it is true exactly
when one of them starts with the prefix, and so it is false when the failed
listing returned no entry. -/
theorem existsEntry_on_listing_error (sys : Sys W) (dir idPrefix : String) (s : St W)
    (entries : List String) (herr : sys.readDir dir s.world = (entries, true)) :
    ((existsEntry sys dir idPrefix s).1 = true ↔
        ∃ f ∈ entries, HasPrefix f ("pokedex_" ++ idPrefix) = true) ∧
      (entries = [] → (existsEntry sys dir idPrefix s).1 = false) := by
  constructor
  · simp only [existsEntry, osReadDir, herr, List.any_eq_true]
  · intro h
    simp only [existsEntry, osReadDir, herr, h, List.any_nil]

/-- Claim C10.  For IDs `id` and `id'` from 1 to `MaxID` and any display name,
on a directory whose listing is the single canonical file the finalizer
produces for `id`, the ledger check for `id'` is true exactly when
`id' = id`. -/
theorem ledger_keyed_by_id (sys : Sys W) (dir name : String) (id id' : Int) (s : St W)
    (hid : 1 ≤ id ∧ id ≤ MaxID) (hid' : 1 ≤ id' ∧ id' ≤ MaxID)
    (hdir : (sys.readDir dir s.world).1 = [newName sys id name]) :
    (existsEntry sys dir (paddedID id') s).1 = true ↔ id' = id := by
  unfold MaxID at hid hid'
  have hlen : (paddedID id').data.length = (paddedID id).data.length := by
    rw [paddedID_length id' (by omega) (by omega), paddedID_length id (by omega) (by omega)]
  simp only [existsEntry, osReadDir, hdir, List.any_cons, List.any_nil, Bool.or_false]
  unfold newName
  rw [prefix_canonical _ _ _ hlen]
  constructor
  · intro h
    exact paddedID_inj id' id (by omega) (by omega) (by omega) (by omega) h
  · intro h
    rw [h]

/-! ## The job runner -/

/-- Claim C5.  Whatever the round for `about` did (ledger hit, success,
session error, timeout or rename error: every state it can leave behind),
`processID` goes on with the round for `stats`: it creates and lists the stats
bucket directory and, unless that ledger check hits, announces the job and
runs the session for `stats`; it then returns its final state, never an
error. -/
theorem processID_runs_stats_after_about (sys : Sys W) (id : Int)
    (absAbout absStats : String) (s : St W) :
    processID sys id absAbout absStats s =
        processMode sys id absAbout absStats "stats"
          (processMode sys id absAbout absStats "about" s) ∧
      ∃ rest, (processID sys id absAbout absStats s).calls =
        (processMode sys id absAbout absStats "about" s).calls ++
          Call.mkdirAll (targetDir sys id absAbout absStats "stats") ::
            Call.readDir (targetDir sys id absAbout absStats "stats") ::
              (if (existsEntry sys (targetDir sys id absAbout absStats "stats") (paddedID id)
                  (osMkdirAll sys (targetDir sys id absAbout absStats "stats")
                    (processMode sys id absAbout absStats "about" s))).1 then []
               else Call.printf ("Worker processing ID " ++ paddedID id ++ " [" ++ "stats" ++ "]\n") ::
                 Call.run id "stats" (targetDir sys id absAbout absStats "stats") :: rest) :=
  ⟨rfl, processMode_calls sys id absAbout absStats "stats"
    (processMode sys id absAbout absStats "about" s)⟩

/-! ## The finalizer -/

/-- Claim C3, as amended.  For every ID, display name and `k` from 0 to 14: if
the session succeeds, the transient file is absent at the polls before poll
`k` (polls are one second apart, counted from 0) and present at poll `k`, and
the rename does not fail, then `runDownload` returns no error, having issued
the session, `k` unsuccessful polls, the successful poll and one rename, of
the transient path to the path of `pokedex_`, the padded ID, `_`, the
upper-cased name and `.bmp`, joined to the same download directory. -/
theorem runDownload_finalizes (sys : Sys W) (id : Int) (mode dir name : String) (k : Nat)
    (s : St W) (hk : k ≤ 14)
    (hrun : (sys.run id mode dir s.world).1 = Except.ok name)
    (habsent : ∀ i, i < k → sys.stat (sys.join dir (oldName name))
      (pollWorld sys (sys.run id mode dir s.world).2 i) = false)
    (hpresent : sys.stat (sys.join dir (oldName name))
      (pollWorld sys (sys.run id mode dir s.world).2 k) = true)
    (hrename : (sys.rename (sys.join dir (oldName name))
      (sys.join dir ("pokedex_" ++ paddedID id ++ "_" ++ ToUpper sys.unicodeUpper name ++ ".bmp"))
      (pollWorld sys (sys.run id mode dir s.world).2 k)).1 = none) :
    runDownload sys id mode dir s =
      (none,
        { world := (sys.rename (sys.join dir (oldName name))
            (sys.join dir ("pokedex_" ++ paddedID id ++ "_" ++ ToUpper sys.unicodeUpper name
              ++ ".bmp"))
            (pollWorld sys (sys.run id mode dir s.world).2 k)).2
          calls := s.calls ++ Call.run id mode dir ::
            (polls (sys.join dir (oldName name)) k ++
              [Call.stat (sys.join dir (oldName name)),
               Call.rename (sys.join dir (oldName name))
                 (sys.join dir ("pokedex_" ++ paddedID id ++ "_" ++
                   ToUpper sys.unicodeUpper name ++ ".bmp")) none]) }) := by
  rw [runDownload_ok sys id mode dir s name hrun,
    pollLoop_found sys _ _ name k 15 _ (by omega) habsent hpresent]
  unfold newName at *
  simp only [osRename, hrename]
  simp

/-- The hypotheses of the amended claim C3 hold with `k = 14` on the example
platform whose file lands 14 seconds after the session: the last poll finds
it and the job succeeds. -/
theorem runDownload_finalizes_witness :
    (14 ≤ 14) ∧
      ((lateSys 14).run 1 "about" kantoDir (start emptyWorld).world).1 = Except.ok "Bulba" ∧
      (∀ i, i < 14 → (lateSys 14).stat ((lateSys 14).join kantoDir (oldName "Bulba"))
        (pollWorld (lateSys 14) ((lateSys 14).run 1 "about" kantoDir
          (start emptyWorld).world).2 i) = false) ∧
      (runDownload (lateSys 14) 1 "about" kantoDir (start emptyWorld)).1 = none :=
  ⟨by decide, rfl, by decide,
    congrArg Prod.fst (runDownload_finalizes (lateSys 14) 1 "about" kantoDir "Bulba" 14
      (start emptyWorld) (by decide) rfl (by decide) (by decide) (by decide))⟩

/-- On the example platform whose file lands 15 seconds after the session, the
world `i` seconds after the session holds the file exactly from second 15. -/
theorem lateSys_pollWorld (i : Nat) :
    pollWorld (lateSys 15) ((lateSys 15).run 1 "about" kantoDir emptyWorld).2 i =
      if i < 15 then
        { clock := i, files := [],
          inflight := [(15, "/data/about/Gen_1_Kanto/pokedex_Bulba.bmp")] }
      else { clock := i, files := ["/data/about/Gen_1_Kanto/pokedex_Bulba.bmp"], inflight := [] } := by
  induction i with
  | zero => decide
  | succ i ih =>
    unfold pollWorld at ih ⊢
    rw [Function.iterate_succ_apply', ih]
    by_cases h1 : i < 14
    · have h2 : i < 15 := by omega
      have h3 : i + 1 < 15 := by omega
      have h4 : ¬ 15 ≤ i + 1 := by omega
      simp [h2, h3, h4, lateSys, simSys, settle]
    · by_cases h2 : i < 15
      · have h3 : ¬ i + 1 < 15 := by omega
        have h4 : 15 ≤ i + 1 := by omega
        have h5 : ¬ i + 1 < 15 := by omega
        simp [h2, h3, h4, h5, lateSys, simSys, settle]
      · have h3 : ¬ i + 1 < 15 := by omega
        simp [h2, h3, lateSys, simSys, settle]

/-- Claim C3 fails at `k = 15`.  On the example platform whose file lands 15
seconds after the session, the file is absent at the 15 polls (seconds 0 to
14), present from second 15 on, and a rename would then succeed; yet
`runDownload` returns the timeout error and has issued no rename. -/
theorem runDownload_misses_file_after_last_sleep :
    ((lateSys 15).run 1 "about" kantoDir (start emptyWorld).world).1 = Except.ok "Bulba" ∧
      (∀ i, i < 15 → (lateSys 15).stat ((lateSys 15).join kantoDir (oldName "Bulba"))
        (pollWorld (lateSys 15) ((lateSys 15).run 1 "about" kantoDir emptyWorld).2 i) = false) ∧
      (∀ i, 15 ≤ i → (lateSys 15).stat ((lateSys 15).join kantoDir (oldName "Bulba"))
        (pollWorld (lateSys 15) ((lateSys 15).run 1 "about" kantoDir emptyWorld).2 i) = true) ∧
      ((lateSys 15).rename ((lateSys 15).join kantoDir (oldName "Bulba"))
        ((lateSys 15).join kantoDir (newName (lateSys 15) 1 "Bulba"))
        (pollWorld (lateSys 15) ((lateSys 15).run 1 "about" kantoDir emptyWorld).2 15)).1 = none ∧
      (runDownload (lateSys 15) 1 "about" kantoDir (start emptyWorld)).1 =
        some "file Bulba timeout" ∧
      (runDownload (lateSys 15) 1 "about" kantoDir (start emptyWorld)).2.calls =
        Call.run 1 "about" kantoDir :: polls "/data/about/Gen_1_Kanto/pokedex_Bulba.bmp" 15 := by
  refine ⟨rfl, by decide, ?_, by decide, by decide, by decide⟩
  intro i hi
  rw [lateSys_pollWorld, if_neg (by omega)]
  rfl

/-- Claim C4.  If the session succeeds with the display name `name` and the
transient file is absent at each of the 15 polls, `runDownload` returns the
error `file <name> timeout`; its calls are the session and 15 rounds of
`os.Stat` and a one-second sleep, with no rename among them, and its final
world is the one 15 sleeps after the session, so that a directory whose
listing no sleep changes lists as it did when the session returned. -/
theorem runDownload_times_out (sys : Sys W) (id : Int) (mode dir name : String) (s : St W)
    (hrun : (sys.run id mode dir s.world).1 = Except.ok name)
    (habsent : ∀ i, i < 15 → sys.stat (sys.join dir (oldName name))
      (pollWorld sys (sys.run id mode dir s.world).2 i) = false) :
    runDownload sys id mode dir s =
        (some ("file " ++ name ++ " timeout"),
          { world := pollWorld sys (sys.run id mode dir s.world).2 15
            calls := s.calls ++ Call.run id mode dir :: polls (sys.join dir (oldName name)) 15 }) ∧
      (∀ a b e, Call.rename a b e ∉
        Call.run id mode dir :: polls (sys.join dir (oldName name)) 15) ∧
      (∀ d, (∀ w, sys.readDir d (sys.sleep 1 w) = sys.readDir d w) →
        sys.readDir d (pollWorld sys (sys.run id mode dir s.world).2 15) =
          sys.readDir d (sys.run id mode dir s.world).2) := by
  refine ⟨?_, ?_, ?_⟩
  · rw [runDownload_ok sys id mode dir s name hrun, pollLoop_timeout sys _ _ name 15 _ habsent]
    simp
  · intro a b e
    simp [polls]
  · intro d hd
    have key : ∀ n w, sys.readDir d (pollWorld sys w n) = sys.readDir d w := by
      intro n
      induction n with
      | zero => intro w; rfl
      | succ n ih =>
        intro w
        rw [← pollWorld_succ, ih, hd]
    exact key 15 _

/-- The hypotheses of claim C4 hold on the example platform whose file lands
a minute after the session, and the job times out. -/
theorem runDownload_times_out_witness :
    ((lateSys 60).run 1 "about" kantoDir (start emptyWorld).world).1 = Except.ok "Bulba" ∧
      (∀ i, i < 15 → (lateSys 60).stat ((lateSys 60).join kantoDir (oldName "Bulba"))
        (pollWorld (lateSys 60) ((lateSys 60).run 1 "about" kantoDir
          (start emptyWorld).world).2 i) = false) ∧
      (runDownload (lateSys 60) 1 "about" kantoDir (start emptyWorld)).1 =
        some "file Bulba timeout" :=
  ⟨rfl, by decide,
    congrArg Prod.fst (runDownload_times_out (lateSys 60) 1 "about" kantoDir "Bulba"
      (start emptyWorld) rfl (by decide)).1⟩

/-! ## The example scenario -/

/-- Claim C6 fails as stated.  In the example scenario (ID 1, mode `about`,
display name `Bulba`, about root `/data/about`) the round looks for
`pokedex_Bulba.bmp`, the display name as read, and never for
`pokedex_BULBA.bmp`; were the site to save its file under the name
`pokedex_BULBA.bmp`, the job would time out. -/
theorem example_scenario_waits_for_name_as_read :
    (processMode bulbaSys 1 aboutRoot statsRoot "about" (start emptyWorld)).calls =
        [Call.mkdirAll "/data/about/Gen_1_Kanto", Call.readDir "/data/about/Gen_1_Kanto",
          Call.printf "Worker processing ID 0001 [about]\n",
          Call.run 1 "about" "/data/about/Gen_1_Kanto",
          Call.stat "/data/about/Gen_1_Kanto/pokedex_Bulba.bmp",
          Call.rename "/data/about/Gen_1_Kanto/pokedex_Bulba.bmp"
            "/data/about/Gen_1_Kanto/pokedex_0001_BULBA.bmp" none] ∧
      Call.stat "/data/about/Gen_1_Kanto/pokedex_BULBA.bmp" ∉
        (processMode bulbaSys 1 aboutRoot statsRoot "about" (start emptyWorld)).calls ∧
      (runDownload (simSys (okCfg "Bulba" "pokedex_BULBA.bmp" 0)) 1 "about" kantoDir
        (start emptyWorld)).1 = some "file Bulba timeout" := by
  refine ⟨by decide, by decide, by decide⟩

/-- Claim C6, as amended.  For ID 1, mode `about` and display name `Bulba`,
under any about root: the bucket directory is the about root joined with
`Gen_1_Kanto`; the file the finalizer looks for there is `pokedex_Bulba.bmp`;
found at the first poll, it is renamed to `pokedex_0001_BULBA.bmp` in that
directory. -/
theorem example_scenario_paths (sys : Sys W) (absAbout absStats : String) (s : St W)
    (hrun : (sys.run 1 "about" (sys.join absAbout "Gen_1_Kanto") s.world).1 = Except.ok "Bulba")
    (hstat : sys.stat (sys.join (sys.join absAbout "Gen_1_Kanto") "pokedex_Bulba.bmp")
      (sys.run 1 "about" (sys.join absAbout "Gen_1_Kanto") s.world).2 = true)
    (hrename : (sys.rename (sys.join (sys.join absAbout "Gen_1_Kanto") "pokedex_Bulba.bmp")
      (sys.join (sys.join absAbout "Gen_1_Kanto") "pokedex_0001_BULBA.bmp")
      (sys.run 1 "about" (sys.join absAbout "Gen_1_Kanto") s.world).2).1 = none) :
    targetDir sys 1 absAbout absStats "about" = sys.join absAbout "Gen_1_Kanto" ∧
      runDownload sys 1 "about" (sys.join absAbout "Gen_1_Kanto") s =
        (none,
          { world := (sys.rename (sys.join (sys.join absAbout "Gen_1_Kanto") "pokedex_Bulba.bmp")
              (sys.join (sys.join absAbout "Gen_1_Kanto") "pokedex_0001_BULBA.bmp")
              (sys.run 1 "about" (sys.join absAbout "Gen_1_Kanto") s.world).2).2
            calls := s.calls ++
              [Call.run 1 "about" (sys.join absAbout "Gen_1_Kanto"),
               Call.stat (sys.join (sys.join absAbout "Gen_1_Kanto") "pokedex_Bulba.bmp"),
               Call.rename (sys.join (sys.join absAbout "Gen_1_Kanto") "pokedex_Bulba.bmp")
                 (sys.join (sys.join absAbout "Gen_1_Kanto") "pokedex_0001_BULBA.bmp") none] }) := by
  have hold : oldName "Bulba" = "pokedex_Bulba.bmp" := by decide
  have hnew : newName sys 1 "Bulba" = "pokedex_0001_BULBA.bmp" := by
    unfold newName
    have hup : ToUpper sys.unicodeUpper "Bulba" = "BULBA" := rfl
    rw [hup]
    decide
  constructor
  · rfl
  · rw [runDownload_ok sys 1 "about" _ s "Bulba" hrun, hold, hnew,
      pollLoop_found sys _ _ "Bulba" 0 15 _ (by omega) (by intro i hi; omega) hstat]
    simp only [osRename, polls, pollWorld, Function.iterate_zero, id_eq, hrename]
    simp

/-- The hypotheses of the amended claim C6 hold on the example platform with
the about root `/data/about`, where the paths are
`/data/about/Gen_1_Kanto/pokedex_Bulba.bmp` and
`/data/about/Gen_1_Kanto/pokedex_0001_BULBA.bmp`. -/
theorem example_scenario_paths_witness :
    ((bulbaSys).run 1 "about" ((bulbaSys).join aboutRoot "Gen_1_Kanto")
        (start emptyWorld).world).1 = Except.ok "Bulba" ∧
      (bulbaSys).join ((bulbaSys).join aboutRoot "Gen_1_Kanto") "pokedex_Bulba.bmp" =
        "/data/about/Gen_1_Kanto/pokedex_Bulba.bmp" ∧
      (bulbaSys).join ((bulbaSys).join aboutRoot "Gen_1_Kanto") "pokedex_0001_BULBA.bmp" =
        "/data/about/Gen_1_Kanto/pokedex_0001_BULBA.bmp" ∧
      (runDownload bulbaSys 1 "about" ((bulbaSys).join aboutRoot "Gen_1_Kanto")
        (start emptyWorld)).1 = none :=
  ⟨rfl, by decide, by decide,
    congrArg Prod.fst (example_scenario_paths bulbaSys aboutRoot statsRoot (start emptyWorld)
      rfl (by decide) (by decide)).2⟩

/-! ## Failure leaves no ledger entry -/

/-- Claim C7 fails as stated.  With ID 1 and the display name `0001`, on a
platform that refuses the rename: the bucket directory holds no ledger entry
before the job, the job fails with the rename error, the directory then holds
the transient file `pokedex_0001.bmp` and nothing else, and the ledger check
for ID 1 is true. -/
theorem transient_file_taken_for_ledger_entry :
    ((1 : Int) ≤ 1 ∧ (1 : Int) ≤ MaxID) ∧
      (existsEntry (lockedSys "0001" "pokedex_0001.bmp") kantoDir (paddedID 1)
        (start emptyWorld)).1 = false ∧
      (runDownload (lockedSys "0001" "pokedex_0001.bmp") 1 "about" kantoDir
        (start emptyWorld)).1 = some "permission denied" ∧
      ((lockedSys "0001" "pokedex_0001.bmp").readDir kantoDir
        (runDownload (lockedSys "0001" "pokedex_0001.bmp") 1 "about" kantoDir
          (start emptyWorld)).2.world).1 = [oldName "0001"] ∧
      (existsEntry (lockedSys "0001" "pokedex_0001.bmp") kantoDir (paddedID 1)
        (runDownload (lockedSys "0001" "pokedex_0001.bmp") 1 "about" kantoDir
          (start emptyWorld)).2).1 = true := by
  refine ⟨by decide, by decide, by decide, by decide, by decide⟩

/-- Claim C7, as amended.  For an ID from 1 to `MaxID`, any mode, and a
display name that does not start with the padded ID: if the bucket directory
holds no ledger entry for the ID before the job, if from the return of the
session to the end of the polling the directory lists nothing beyond what it
listed before and the transient file `pokedex_<name>.bmp`, if a failed rename
leaves the listing as it was, and if the job fails, then the ledger check for
the ID is still false after the job. -/
theorem no_ledger_entry_on_failure (sys : Sys W) (id : Int) (mode dir name : String) (s : St W)
    (hid : 1 ≤ id ∧ id ≤ MaxID)
    (hname : HasPrefix name (paddedID id) = false)
    (hbefore : (existsEntry sys dir (paddedID id) s).1 = false)
    (hadd : ∀ i, i ≤ 15 →
      ∀ f ∈ (sys.readDir dir (pollWorld sys (sys.run id mode dir s.world).2 i)).1,
        f ∈ (sys.readDir dir s.world).1 ∨ f = oldName name)
    (hren : ∀ i a b, (sys.rename a b (pollWorld sys (sys.run id mode dir s.world).2 i)).1 ≠ none →
      (sys.readDir dir (sys.rename a b (pollWorld sys (sys.run id mode dir s.world).2 i)).2).1 =
        (sys.readDir dir (pollWorld sys (sys.run id mode dir s.world).2 i)).1)
    (hfail : (runDownload sys id mode dir s).1 ≠ none) :
    (existsEntry sys dir (paddedID id) (runDownload sys id mode dir s).2).1 = false := by
  unfold MaxID at hid
  have hex : ∀ st : St W, (existsEntry sys dir (paddedID id) st).1 =
      (sys.readDir dir st.world).1.any (fun f => HasPrefix f ("pokedex_" ++ paddedID id)) :=
    fun _ => rfl
  have hold : HasPrefix (oldName name) ("pokedex_" ++ paddedID id) = false := by
    by_contra hc
    have ht : HasPrefix (oldName name) ("pokedex_" ++ paddedID id) = true := by simpa using hc
    have := prefix_transient (paddedID id) name (paddedID_length id (by omega) (by omega))
      (paddedID_no_dot id (by omega) (by omega)) ht
    rw [hname] at this
    exact Bool.false_ne_true this
  have hpoll : ∀ i, i ≤ 15 →
      (sys.readDir dir (pollWorld sys (sys.run id mode dir s.world).2 i)).1.any
        (fun f => HasPrefix f ("pokedex_" ++ paddedID id)) = false := by
    intro i hi
    rw [List.any_eq_false]
    intro f hf
    rcases hadd i hi f hf with hin | heq
    · rw [hex, List.any_eq_false] at hbefore
      exact hbefore f hin
    · rw [heq, hold]
      exact Bool.false_ne_true
  rw [hex]
  cases hr : (sys.run id mode dir s.world).1 with
  | error err =>
    rw [runDownload_error sys id mode dir s err hr]
    exact hpoll 0 (by omega)
  | ok nm =>
    rw [runDownload_ok sys id mode dir s nm hr] at hfail ⊢
    rcases pollLoop_cases sys (sys.join dir (oldName nm)) (sys.join dir (newName sys id nm))
      nm 15 { world := (sys.run id mode dir s.world).2,
              calls := s.calls ++ [Call.run id mode dir] } with h | ⟨k, hk, h⟩
    · rw [h]
      exact hpoll 15 (by omega)
    · rw [h] at hfail ⊢
      simp only [osRename] at hfail ⊢
      rw [hren k _ _ hfail]
      exact hpoll k (by omega)

/-- The hypotheses of the amended claim C7 hold for ID 1 and the display name
`Bulba` on a platform that refuses the rename: the job fails, the transient
file stays, and the ledger check is still false. -/
theorem no_ledger_entry_on_failure_witness :
    ((1 : Int) ≤ 1 ∧ (1 : Int) ≤ MaxID) ∧
      HasPrefix "Bulba" (paddedID 1) = false ∧
      (existsEntry (lockedSys "Bulba" "pokedex_Bulba.bmp") kantoDir (paddedID 1)
        (start emptyWorld)).1 = false ∧
      (runDownload (lockedSys "Bulba" "pokedex_Bulba.bmp") 1 "about" kantoDir
        (start emptyWorld)).1 = some "permission denied" ∧
      ((lockedSys "Bulba" "pokedex_Bulba.bmp").readDir kantoDir
        (runDownload (lockedSys "Bulba" "pokedex_Bulba.bmp") 1 "about" kantoDir
          (start emptyWorld)).2.world).1 = ["pokedex_Bulba.bmp"] ∧
      (existsEntry (lockedSys "Bulba" "pokedex_Bulba.bmp") kantoDir (paddedID 1)
        (runDownload (lockedSys "Bulba" "pokedex_Bulba.bmp") 1 "about" kantoDir
          (start emptyWorld)).2).1 = false :=
  ⟨by decide, by decide, by decide, by decide, by decide,
    no_ledger_entry_on_failure (lockedSys "Bulba" "pokedex_Bulba.bmp") 1 "about" kantoDir "Bulba"
      (start emptyWorld) (by decide) (by decide) (by decide) (by decide)
      (fun _ _ _ _ => rfl) (by decide)⟩

/-! ## Listing errors and the ledger key -/

/-- Claim C8 fails as stated.  On a platform whose listing fails after reading
one entry, in the world where the about job of ID 1 is done, `os.ReadDir`
reports an error and `exists` returns true. -/
theorem existsEntry_true_despite_listing_error :
    ((faultySys).readDir kantoDir (start doneWorld).world).2 = true ∧
      ((faultySys).readDir kantoDir (start doneWorld).world).1 = ["pokedex_0001_BULBA.bmp"] ∧
      (existsEntry faultySys kantoDir (paddedID 1) (start doneWorld)).1 = true := by
  refine ⟨by decide, by decide, by decide⟩

/-- The hypothesis of the amended claim C8 holds on a platform whose listing
fails before reading any entry, and `exists` is false there although the
directory holds the ledger entry. -/
theorem existsEntry_on_listing_error_witness :
    (simSys { okCfg "Bulba" "pokedex_Bulba.bmp" 0 with listFault := some 0 }).readDir kantoDir
        (start doneWorld).world = ([], true) ∧
      (existsEntry (simSys { okCfg "Bulba" "pokedex_Bulba.bmp" 0 with listFault := some 0 })
        kantoDir (paddedID 1) (start doneWorld)).1 = false :=
  ⟨by decide,
    (existsEntry_on_listing_error
      (simSys { okCfg "Bulba" "pokedex_Bulba.bmp" 0 with listFault := some 0 })
      kantoDir (paddedID 1) (start doneWorld) [] (by decide)).2 rfl⟩

/-- The hypotheses of claim C10 hold in the world where the about job of ID 1
is done: the check for ID 1 is true and the check for ID 10 is false. -/
theorem ledger_keyed_by_id_witness :
    (((1 : Int) ≤ 1 ∧ (1 : Int) ≤ MaxID) ∧ ((1 : Int) ≤ 10 ∧ (10 : Int) ≤ MaxID) ∧
      ((bulbaSys).readDir kantoDir (start doneWorld).world).1 = [newName bulbaSys 1 "Bulba"]) ∧
      ((existsEntry bulbaSys kantoDir (paddedID 10) (start doneWorld)).1 = true ↔
        (10 : Int) = 1) :=
  ⟨⟨by decide, by decide, by decide⟩,
    ledger_keyed_by_id bulbaSys kantoDir "Bulba" 1 10 (start doneWorld) (by decide) (by decide)
      (by decide)⟩

/-! ## One worker per ID -/

/-- Claim C9 fails as stated.  The run in which the warm-up of each of the
four workers fails is a run of `main`: all of 1 to 1025 are sent, the channel
is closed, every worker has returned, and no ID was received by any worker. -/
theorem all_warmups_failed_strands_ids :
    exec Pool.init strandedRun = some strandedPool ∧
      (strandedPool.sent : Int) = MaxID ∧ strandedPool.closed = true ∧
      strandedPool.workers = [Worker.failed, Worker.failed, Worker.failed, Worker.failed] ∧
      (1 : Int) ∈ strandedPool.jobs ∧ strandedPool.received = [] := by
  refine ⟨?_, by decide, by decide, by decide, ?_, by decide⟩
  · have h0 : exec Pool.init
        [Action.warmFail 0, Action.warmFail 1, Action.warmFail 2, Action.warmFail 3] =
        some { sent := 0, closed := false, jobs := [], workers := deadWorkers, received := [] } := by
      decide
    have h1 : exec
        { sent := 1025, closed := false, jobs := idsUpTo 1025, workers := deadWorkers, received := [] }
        [Action.close] = some strandedPool := by
      have hc : (MaxID < ((1025 : Nat) : Int) + 1) := by decide
      simp only [exec, step, hc, and_self, if_true, strandedPool]
    unfold strandedRun
    rw [exec_append, exec_append, h0, Option.some_bind, exec_feed 1025 (le_refl _),
      Option.some_bind, h1]
  · show (1 : Int) ∈ idsUpTo 1025
    unfold idsUpTo
    exact List.mem_map.mpr ⟨1, by simp [List.mem_range'], rfl⟩

/-- Claim C9, as amended.  In every state `main` can reach: the IDs received
so far followed by those waiting in the channel are exactly 1 to `sent` in
increasing order, with `sent` at most `MaxID`, so each value is enqueued once
and received at most once; no two workers are inside `processID` for the same
ID; once the channel is closed these IDs are 1 to `MaxID`; and once a worker
has left its loop on the drained channel, every ID from 1 to `MaxID` has been
received, exactly once. -/
theorem one_worker_per_id (p : Pool) (h : Reachable p) :
    (p.received.map Prod.snd ++ p.jobs = idsUpTo p.sent ∧ (p.sent : Int) ≤ MaxID) ∧
      (p.received.map Prod.snd ++ p.jobs).Nodup ∧
      (∀ (w1 w2 : Nat) (id : Int), p.workers[w1]? = some (Worker.running id) →
        p.workers[w2]? = some (Worker.running id) → w1 = w2) ∧
      (p.closed = true → p.received.map Prod.snd ++ p.jobs = idsUpTo MaxID.toNat) ∧
      ((∃ w : Nat, p.workers[w]? = some Worker.finished) →
        p.received.map Prod.snd = idsUpTo MaxID.toNat ∧ p.jobs = []) := by
  have hp := inv_reachable p h
  have hnd : (p.received.map Prod.snd ++ p.jobs).Nodup := by
    rw [hp.queue]
    exact idsUpTo_nodup p.sent
  have hall : p.closed = true → p.received.map Prod.snd ++ p.jobs = idsUpTo MaxID.toNat := by
    intro hc
    have h1 := hp.closed hc
    have h2 : p.sent = MaxID.toNat := by omega
    rw [hp.queue, h2]
  refine ⟨⟨hp.queue, hp.bound⟩, hnd, ?_, hall, ?_⟩
  · intro w1 w2 id h1 h2
    have e := List.inj_on_of_nodup_map hnd.of_append_left (hp.running w1 id h1)
      (hp.running w2 id h2) rfl
    exact congrArg Prod.fst e
  · intro hf
    obtain ⟨hc, hj⟩ := hp.finished hf
    have := hall hc
    rw [hj, List.append_nil] at this
    exact ⟨this, hj⟩

/-- The hypothesis of the amended claim C9 holds in the state where the first
worker is inside `processID` for ID 1, and no other worker runs that ID. -/
theorem one_worker_per_id_witness :
    Reachable busyPool ∧
      (∀ (w1 w2 : Nat) (id : Int), busyPool.workers[w1]? = some (Worker.running id) →
        busyPool.workers[w2]? = some (Worker.running id) → w1 = w2) :=
  ⟨⟨[Action.warmOk 0, Action.feed, Action.recv 0], by decide⟩,
    (one_worker_per_id busyPool ⟨[Action.warmOk 0, Action.feed, Action.recv 0], by decide⟩).2.2.1⟩
end Scraper
